import Mathlib

/-!
Verification of the sync-point rendezvous service
(src/sync-point/src/main.rs).

The service keeps a registry WaitingParties(HashMap<UniqueId, Arc<Notify>>)
of pending waiters keyed by a u32 identifier.  The handler sync_parties
acquires the registry write lock and performs take (remove-and-return); if an
entry was present it fires notify_one on the taken handle and answers
200 OUTBOUND_MESSAGE; otherwise it inserts a fresh Notify, drops the
lock, and awaits timeout(wait_timeout, party.notified()): on Ok it answers
200 INBOUND_MESSAGE, on Err it reacquires the lock, removes the id and
answers 408 TIMEOUT_MESSAGE.

Shallow embedding used here:

* UniqueId is Fin (2 ^ 32), the value space of u32 in Rust.
* Arc<Notify> handles are identified by allocation order (HandleId = Nat);
  a fresh handle is drawn from the nextH counter.  The only Notify
  behaviour the program uses is embedded as a one-shot permit: notify_one
  on a handle with no pending waiter stores a permit (the handle id enters
  the fired set); notified() resolves as soon as a permit is stored,
  consuming it.  tokio::time::timeout polls the inner future before the
  timer, so the elapsed branch can only be taken while no permit is stored.
* The HashMap is an association list with replace-on-insert semantics
  (lookup, eraseKey), so keys stay duplicate-free exactly as in a map.
* Each in-flight call to sync_parties is an Attempt with a program
  counter: start (before the first critical section), waiting h
  (awaiting the timeout of notified() on handle h), cleanup (the
  timer elapsed, the notified() future is dropped, the 408 branch still
  has to reacquire the lock and remove the entry), done o.
* Concurrency is an interleaving small-step semantics: step applies one
  labelled action of one attempt.  The arrive action is the whole first
  critical section (lines 60-71: lock, take-or-register, and for a matcher
  the notify_one, all under the single write guard).  The deliver action
  resolves a pending wait whose handle holds a permit.  The expire action
  is the timer winning the race inside timeout (only possible while no
  permit is stored).  The finish action is the separate critical
  section of the 408 branch (line 78) fused with its return, which
  touches no shared state.
-/

/-- Embeds type UniqueId = u32 — the identifier space of the service. -/
abbrev UniqueId := Fin (2 ^ 32)

instance : NeZero (2 ^ 32) := ⟨by norm_num⟩

/-- Handles (Arc<Notify>) are named by allocation order. -/
abbrev HandleId := Nat

/-- The map inside WaitingParties(HashMap<UniqueId, Arc<Notify>>),
as an association list with duplicate-free keys maintained by the
operations below. -/
abbrev WaitingParties := List (UniqueId × HandleId)

/-- Lookup of a key, as HashMap does it. -/
def lookup (m : WaitingParties) (k : UniqueId) : Option HandleId :=
  match m with
  | [] => none
  | (k', v) :: rest => if k' = k then some v else lookup rest k

/-- Removal of every binding of the key (a HashMap holds at most one). -/
def eraseKey (m : WaitingParties) (k : UniqueId) : WaitingParties :=
  match m with
  | [] => []
  | (k', v) :: rest => if k' = k then eraseKey rest k else (k', v) :: eraseKey rest k

/-- Embeds WaitingParties::take, which runs self.0.remove(&unique_id) —
it returns the entry bound to unique_id, if any, together with the map
with that binding removed. -/
def WaitingParties.take (m : WaitingParties) (uniqueId : UniqueId) :
    Option HandleId × WaitingParties :=
  (lookup m uniqueId, eraseKey m uniqueId)

/-- Embeds WaitingParties::insert: stores a freshly created handle under
unique_id (replacing any previous binding, as HashMap::insert does)
and returns it. -/
def WaitingParties.insert (m : WaitingParties) (uniqueId : UniqueId)
    (fresh : HandleId) : HandleId × WaitingParties :=
  (fresh, (uniqueId, fresh) :: eraseKey m uniqueId)

/-- Embeds WaitingParties::remove, which runs self.0.remove(&unique_id);
— the cleanup of the timeout path; the removed value is discarded. -/
def WaitingParties.remove (m : WaitingParties) (uniqueId : UniqueId) :
    WaitingParties :=
  eraseKey m uniqueId

/-- The three terminal outcomes of one call to sync_parties. -/
inductive Outcome where
  | matchedAsFirst
  | matchedAsSecond
  | timedOut
deriving DecidableEq

/-- Program counter of one in-flight call to sync_parties. -/
inductive PC where
  | start
  | waiting (h : HandleId)
  | cleanup
  | done (o : Outcome)
deriving DecidableEq

/-- One in-flight call: the path identifier it arrived with and where it is. -/
structure Attempt where
  id : UniqueId
  pc : PC
deriving DecidableEq

/-- Global state: the attempts, the shared registry behind the RwLock,
the set of handles carrying a stored notify_one permit, and the
allocation counter for fresh handles. -/
structure Config where
  attempts : List Attempt
  registry : WaitingParties
  fired : List HandleId
  nextH : HandleId
deriving DecidableEq

/-- Labelled scheduler actions; the Nat selects the attempt. -/
inductive Act where
  | arrive (i : Nat)
  | deliver (i : Nat)
  | expire (i : Nat)
  | finish (i : Nat)
deriving DecidableEq

/-- The attempt an action belongs to. -/
def Act.idx : Act → Nat
  | .arrive i => i
  | .deliver i => i
  | .expire i => i
  | .finish i => i

/-- Whether the action is a timer expiry. -/
def Act.isExpire : Act → Bool
  | .expire _ => true
  | _ => false

/-- One interleaving step.  A result of none means the action is not
enabled (wrong program counter, nonexistent attempt, or a wait whose
permit state forces the other branch of the timeout race). -/
def step (c : Config) (a : Act) : Option Config :=
  match c.attempts[a.idx]? with
  | none => none
  | some att =>
    match a, att.pc with
    | .arrive i, .start =>
      match WaitingParties.take c.registry att.id with
      | (some hdl, m') =>
        some { c with
          attempts := c.attempts.set i ⟨att.id, .done .matchedAsSecond⟩,
          registry := m',
          fired := hdl :: c.fired }
      | (none, _) =>
        some { c with
          attempts := c.attempts.set i ⟨att.id, .waiting c.nextH⟩,
          registry := (WaitingParties.insert c.registry att.id c.nextH).2,
          nextH := c.nextH + 1 }
    | .deliver i, .waiting hdl =>
      if hdl ∈ c.fired then
        some { c with
          attempts := c.attempts.set i ⟨att.id, .done .matchedAsFirst⟩,
          fired := c.fired.filter fun x => x ≠ hdl }
      else none
    | .expire i, .waiting hdl =>
      if hdl ∈ c.fired then none
      else some { c with attempts := c.attempts.set i ⟨att.id, .cleanup⟩ }
    | .finish i, .cleanup =>
      some { c with
        attempts := c.attempts.set i ⟨att.id, .done .timedOut⟩,
        registry := WaitingParties.remove c.registry att.id }
    | _, _ => none

/-- Apply an action if enabled, otherwise stutter. -/
def step1 (c : Config) (a : Act) : Config :=
  (step c a).getD c

/-- Run a whole schedule. -/
def run (c : Config) (tr : List Act) : Config :=
  tr.foldl step1 c

/-- Embeds static INBOUND_MESSAGE — body for a first party that got matched. -/
def INBOUND_MESSAGE : String := "Hooray! Another party is connected!\n"

/-- Embeds static OUTBOUND_MESSAGE — body for a second party. -/
def OUTBOUND_MESSAGE : String := "Yippee! We connected to another party!\n"

/-- Embeds static TIMEOUT_MESSAGE — body for a timed-out first party. -/
def TIMEOUT_MESSAGE : String := "Oh no... we timed out waiting for another party\n"

/-- The HTTP response sync_parties builds for each outcome
(status code, body): lines 65, 75 and 79 of the source. -/
def responseOf : Outcome → Nat × String
  | .matchedAsFirst => (200, INBOUND_MESSAGE)
  | .matchedAsSecond => (200, OUTBOUND_MESSAGE)
  | .timedOut => (408, TIMEOUT_MESSAGE)

/-- Two fresh concurrent attempts on the same identifier, empty registry. -/
def init2 (id : UniqueId) : Config :=
  ⟨[⟨id, .start⟩, ⟨id, .start⟩], [], [], 0⟩

/-- Three fresh concurrent attempts on the same identifier. -/
def init3 (id : UniqueId) : Config :=
  ⟨[⟨id, .start⟩, ⟨id, .start⟩, ⟨id, .start⟩], [], [], 0⟩

/-- Two-attempt shape reached after the first arrival registers. -/
def cfgB0 (id : UniqueId) : Config :=
  ⟨[⟨id, .waiting 0⟩, ⟨id, .start⟩], [(id, 0)], [], 1⟩

/-- Mirror image of cfgB0. -/
def cfgB1 (id : UniqueId) : Config :=
  ⟨[⟨id, .start⟩, ⟨id, .waiting 0⟩], [(id, 0)], [], 1⟩

/-- Shape after the second arrival takes the entry and fires it. -/
def cfgC0 (id : UniqueId) : Config :=
  ⟨[⟨id, .waiting 0⟩, ⟨id, .done .matchedAsSecond⟩], [], [0], 1⟩

/-- Mirror image of cfgC0. -/
def cfgC1 (id : UniqueId) : Config :=
  ⟨[⟨id, .done .matchedAsSecond⟩, ⟨id, .waiting 0⟩], [], [0], 1⟩

/-- Final shape: first arrival matched as first, second as second. -/
def cfgD0 (id : UniqueId) : Config :=
  ⟨[⟨id, .done .matchedAsFirst⟩, ⟨id, .done .matchedAsSecond⟩], [], [], 1⟩

/-- Mirror image of cfgD0. -/
def cfgD1 (id : UniqueId) : Config :=
  ⟨[⟨id, .done .matchedAsSecond⟩, ⟨id, .done .matchedAsFirst⟩], [], [], 1⟩

/-- Reachability invariant for two concurrent attempts on one identifier
when no timer fires. -/
def Inv2 (id : UniqueId) (c : Config) : Prop :=
  c = init2 id ∨ c = cfgB0 id ∨ c = cfgB1 id ∨ c = cfgC0 id ∨
    c = cfgC1 id ∨ c = cfgD0 id ∨ c = cfgD1 id

/-- The window trace: attempt 0 registers, its timer expires while no permit
is stored, attempt 1 then takes the still-present entry and fires it,
attempt 0 finally cleans up. -/
def windowTrace : List Act := [.arrive 0, .expire 0, .arrive 1, .finish 0]

/-- The stale-cleanup trace: attempt 0 registers and expires, attempt 1
takes and fires the stale handle of attempt 0, attempt 2 registers fresh,
the cleanup of attempt 0 then removes the live entry of attempt 2. -/
def staleTrace : List Act := [.arrive 0, .expire 0, .arrive 1, .arrive 2, .finish 0]

theorem lookup_eraseKey_self (m : WaitingParties) (k : UniqueId) :
    lookup (eraseKey m k) k = none := by
  induction m with
  | nil => rfl
  | cons p rest ih =>
    obtain ⟨k', v⟩ := p
    by_cases h : k' = k
    · simp [eraseKey, h, ih]
    · simp [eraseKey, lookup, h, ih]

theorem eraseKey_of_lookup_none (m : WaitingParties) (k : UniqueId)
    (h : lookup m k = none) : eraseKey m k = m := by
  induction m with
  | nil => rfl
  | cons p rest ih =>
    obtain ⟨k', v⟩ := p
    by_cases hk : k' = k
    · simp [lookup, hk] at h
    · simp [lookup, hk] at h
      simp [eraseKey, hk, ih h]

theorem eraseKey_idem (m : WaitingParties) (k : UniqueId) :
    eraseKey (eraseKey m k) k = eraseKey m k :=
  eraseKey_of_lookup_none _ _ (lookup_eraseKey_self m k)

theorem inv2_step (id : UniqueId) (c : Config) (a : Act)
    (hInv : Inv2 id c) (ha : a.isExpire = false) : Inv2 id (step1 c a) := by
  rcases a with i | i | i | i
  case expire => simp [Act.isExpire] at ha
  all_goals
    rcases hInv with h | h | h | h | h | h | h <;> subst h <;>
      rcases i with _ | _ | i <;>
      simp [Inv2, step1, step, Act.idx, init2, cfgB0, cfgB1, cfgC0, cfgC1, cfgD0, cfgD1,
        WaitingParties.take, WaitingParties.insert, WaitingParties.remove, lookup, eraseKey]

theorem inv2_run (id : UniqueId) (tr : List Act) (c : Config)
    (hc : Inv2 id c) (h : ∀ a ∈ tr, a.isExpire = false) : Inv2 id (run c tr) := by
  induction tr generalizing c with
  | nil => exact hc
  | cons a tl ih =>
    exact ih (step1 c a) (inv2_step id c a hc (h a (List.mem_cons_self a tl)))
      fun b hb => h b (List.mem_cons_of_mem a hb)

/-- Claim C1: for every identifier, when exactly two concurrent attempts
arrive with that identifier (concurrent meaning that neither wait ends in a
timer expiry), the atomic take-or-register step of sync_parties assigns one
of them the Waiter role and the other the Matcher role, so whenever both
resolve, the pair is one matchedAsFirst and one matchedAsSecond — never two
Waiters and never two Matchers. -/
theorem claim_C1_no_stall (id : UniqueId) (tr : List Act)
    (hne : ∀ a ∈ tr, a.isExpire = false) (o0 o1 : Outcome)
    (h0 : (run (init2 id) tr).attempts[0]? = some ⟨id, .done o0⟩)
    (h1 : (run (init2 id) tr).attempts[1]? = some ⟨id, .done o1⟩) :
    (o0 = .matchedAsFirst ∧ o1 = .matchedAsSecond) ∨
      (o0 = .matchedAsSecond ∧ o1 = .matchedAsFirst) := by
  have hInv := inv2_run id tr (init2 id) (Or.inl rfl) hne
  rcases hInv with h | h | h | h | h | h | h <;> rw [h] at h0 h1 <;>
    simp [init2, cfgB0, cfgB1, cfgC0, cfgC1, cfgD0, cfgD1] at h0 h1 <;>
    simp [h0, h1]

/-- Witness for claim C1 at a concrete schedule: attempt 0 registers,
attempt 1 matches it, attempt 0 is delivered. -/
theorem claim_C1_no_stall_witness :
    (Outcome.matchedAsFirst = Outcome.matchedAsFirst ∧
        Outcome.matchedAsSecond = Outcome.matchedAsSecond) ∨
      (Outcome.matchedAsFirst = Outcome.matchedAsSecond ∧
        Outcome.matchedAsSecond = Outcome.matchedAsFirst) :=
  claim_C1_no_stall 1 [.arrive 0, .arrive 1, .deliver 0] (by decide)
    .matchedAsFirst .matchedAsSecond (by decide) (by decide)

/-- Claim C2: a fire that happens before the wait is armed is remembered,
not lost: whenever an attempt is waiting on a handle whose permit is
already stored (notify_one ran before, or while, the wait was pending),
the timer branch of the timeout race is disabled and the only possible
resolution of the wait is matchedAsFirst, never timedOut. -/
theorem claim_C2_no_lost_wakeup (c : Config) (i : Nat) (id : UniqueId) (hdl : HandleId)
    (hw : c.attempts[i]? = some ⟨id, .waiting hdl⟩) (hf : hdl ∈ c.fired) :
    step c (.expire i) = none ∧
      ∃ c', step c (.deliver i) = some c' ∧
        c'.attempts[i]? = some ⟨id, .done .matchedAsFirst⟩ := by
  have hlt : i < c.attempts.length := (List.getElem?_eq_some.mp hw).1
  constructor
  · simp [step, Act.idx, hw, hf]
  · refine ⟨{ c with
      attempts := c.attempts.set i ⟨id, .done .matchedAsFirst⟩,
      fired := c.fired.filter fun x => x ≠ hdl }, ?_, ?_⟩
    · simp [step, Act.idx, hw, hf]
    · simpa using List.getElem?_set_eq_of_lt (⟨id, .done .matchedAsFirst⟩ : Attempt) hlt

/-- Witness for claim C2: one attempt waiting on handle 0 whose permit is
stored. -/
theorem claim_C2_no_lost_wakeup_witness :
    step ⟨[⟨1, .waiting 0⟩], [], [0], 1⟩ (.expire 0) = none ∧
      ∃ c', step ⟨[⟨1, .waiting 0⟩], [], [0], 1⟩ (.deliver 0) = some c' ∧
        c'.attempts[0]? = some ⟨1, .done .matchedAsFirst⟩ :=
  claim_C2_no_lost_wakeup ⟨[⟨1, .waiting 0⟩], [], [0], 1⟩ 0 1 0 (by decide) (by decide)

/-- Claim C3 (failing execution): the code can produce the third outcome the
spec forbids.  In the window between the timer of a Waiter winning the
timeout race and that Waiter reacquiring the lock for cleanup, a Matcher
takes the still-present entry and fires the already-abandoned handle: the
Matcher resolves matchedAsSecond while its peer resolves timedOut, which is
neither of the two outcomes the claim allows. -/
theorem claim_C3_third_outcome :
    (run (init2 1) windowTrace).attempts[0]? = some ⟨1, .done .timedOut⟩ ∧
      (run (init2 1) windowTrace).attempts[1]? = some ⟨1, .done .matchedAsSecond⟩ := by
  decide

/-- Claim C4: the finish step of the 408 branch removes the identifier
under the write lock, so at the instant an attempt resolves as timedOut the
registry contains no entry for that identifier. -/
theorem claim_C4_leak_free_timeout (c : Config) (i : Nat) (id : UniqueId)
    (hcl : c.attempts[i]? = some ⟨id, .cleanup⟩) :
    ∃ c', step c (.finish i) = some c' ∧
      lookup c'.registry id = none ∧
      c'.attempts[i]? = some ⟨id, .done .timedOut⟩ := by
  have hlt : i < c.attempts.length := (List.getElem?_eq_some.mp hcl).1
  refine ⟨{ c with
    attempts := c.attempts.set i ⟨id, .done .timedOut⟩,
    registry := WaitingParties.remove c.registry id }, ?_, ?_, ?_⟩
  · simp [step, Act.idx, hcl]
  · exact lookup_eraseKey_self c.registry id
  · simpa using List.getElem?_set_eq_of_lt (⟨id, .done .timedOut⟩ : Attempt) hlt

/-- Witness for claim C4: a single attempt in its cleanup phase with its
entry still registered. -/
theorem claim_C4_leak_free_timeout_witness :
    ∃ c', step ⟨[⟨1, .cleanup⟩], [(1, 0)], [], 1⟩ (.finish 0) = some c' ∧
      lookup c'.registry 1 = none ∧
      c'.attempts[0]? = some ⟨1, .done .timedOut⟩ :=
  claim_C4_leak_free_timeout ⟨[⟨1, .cleanup⟩], [(1, 0)], [], 1⟩ 0 1 (by decide)

/-- Claim C5: the atomic take-or-register step behaves as specified.  If an
entry exists for the identifier it is removed and its handle fired (the
caller resolves matchedAsSecond and the post-state registry no longer
contains the identifier); if none exists, a fresh handle is created, stored
under the identifier, and the caller starts waiting on it. -/
theorem claim_C5_take_or_register (c : Config) (i : Nat) (id : UniqueId)
    (hs : c.attempts[i]? = some ⟨id, .start⟩) :
    (∀ hdl, lookup c.registry id = some hdl →
      ∃ c', step c (.arrive i) = some c' ∧
        lookup c'.registry id = none ∧ hdl ∈ c'.fired ∧
        c'.attempts[i]? = some ⟨id, .done .matchedAsSecond⟩) ∧
    (lookup c.registry id = none →
      ∃ c', step c (.arrive i) = some c' ∧
        lookup c'.registry id = some c.nextH ∧ c'.nextH = c.nextH + 1 ∧
        c'.attempts[i]? = some ⟨id, .waiting c.nextH⟩) := by
  have hlt : i < c.attempts.length := (List.getElem?_eq_some.mp hs).1
  constructor
  · intro hdl hlk
    refine ⟨{ c with
      attempts := c.attempts.set i ⟨id, .done .matchedAsSecond⟩,
      registry := eraseKey c.registry id,
      fired := hdl :: c.fired }, ?_, ?_, ?_, ?_⟩
    · simp [step, Act.idx, hs, WaitingParties.take, hlk]
    · exact lookup_eraseKey_self c.registry id
    · exact List.mem_cons_self hdl c.fired
    · simpa using List.getElem?_set_eq_of_lt (⟨id, .done .matchedAsSecond⟩ : Attempt) hlt
  · intro hlk
    refine ⟨{ c with
      attempts := c.attempts.set i ⟨id, .waiting c.nextH⟩,
      registry := (id, c.nextH) :: eraseKey c.registry id,
      nextH := c.nextH + 1 }, ?_, ?_, rfl, ?_⟩
    · simp [step, Act.idx, hs, WaitingParties.take, WaitingParties.insert, hlk]
    · simp [lookup]
    · simpa using List.getElem?_set_eq_of_lt (⟨id, .waiting c.nextH⟩ : Attempt) hlt

/-- Witness for claim C5: one attempt arriving at a registry holding an
entry for its identifier. -/
theorem claim_C5_take_or_register_witness :
    (∀ hdl, lookup ([(1, 0)] : WaitingParties) 1 = some hdl →
      ∃ c', step ⟨[⟨1, .start⟩], [(1, 0)], [], 1⟩ (.arrive 0) = some c' ∧
        lookup c'.registry 1 = none ∧ hdl ∈ c'.fired ∧
        c'.attempts[0]? = some ⟨1, .done .matchedAsSecond⟩) ∧
    (lookup ([(1, 0)] : WaitingParties) 1 = none →
      ∃ c', step ⟨[⟨1, .start⟩], [(1, 0)], [], 1⟩ (.arrive 0) = some c' ∧
        lookup c'.registry 1 = some 1 ∧ c'.nextH = 2 ∧
        c'.attempts[0]? = some ⟨1, .waiting 1⟩) :=
  claim_C5_take_or_register ⟨[⟨1, .start⟩], [(1, 0)], [], 1⟩ 0 1 (by decide)

/-- Claim C6 (failing execution): the unconditional remove of the timeout
path can delete the entry of a different, still-waiting attempt.  After the
stale-cleanup schedule, attempt 2 is waiting on identifier 1 yet the
registry holds no entry for identifier 1, so an entry does not exist
exactly while exactly one party is waiting, contradicting the claimed
invariant. -/
theorem claim_C6_invariant_broken :
    (run (init3 1) staleTrace).attempts[2]? = some ⟨1, .waiting 1⟩ ∧
      lookup (run (init3 1) staleTrace).registry 1 = none ∧
      (run (init3 1) staleTrace).attempts[0]? = some ⟨1, .done .timedOut⟩ := by
  decide

/-- Claim C7: the three terminal outcomes map to exactly the specified
responses — the second party gets 200 with the outbound message, a matched
first party gets 200 with the inbound message, a timed-out first party gets
408 with the timeout message — and every outcome yields one of these three
responses. -/
theorem claim_C7_responses :
    responseOf .matchedAsSecond = (200, OUTBOUND_MESSAGE) ∧
    responseOf .matchedAsFirst = (200, INBOUND_MESSAGE) ∧
    responseOf .timedOut = (408, TIMEOUT_MESSAGE) ∧
    ∀ o : Outcome,
      responseOf o = (200, OUTBOUND_MESSAGE) ∨
      responseOf o = (200, INBOUND_MESSAGE) ∨
      responseOf o = (408, TIMEOUT_MESSAGE) := by
  refine ⟨rfl, rfl, rfl, ?_⟩
  intro o
  cases o with
  | matchedAsFirst => exact Or.inr (Or.inl rfl)
  | matchedAsSecond => exact Or.inl rfl
  | timedOut => exact Or.inr (Or.inr rfl)

/-- Claim C8: removal for an identifier with no entry is a no-op that
leaves the map unchanged and raises no error, and removing twice is the
same as removing once. -/
theorem claim_C8_idempotent_cleanup (m : WaitingParties) (uniqueId : UniqueId)
    (h : lookup m uniqueId = none) :
    WaitingParties.remove m uniqueId = m ∧
      WaitingParties.remove (WaitingParties.remove m uniqueId) uniqueId =
        WaitingParties.remove m uniqueId :=
  ⟨eraseKey_of_lookup_none m uniqueId h, eraseKey_idem m uniqueId⟩

/-- Witness for claim C8: removing identifier 1 from a map that only
binds identifier 2. -/
theorem claim_C8_idempotent_cleanup_witness :
    WaitingParties.remove ([(2, 5)] : WaitingParties) 1 = [(2, 5)] ∧
      WaitingParties.remove (WaitingParties.remove ([(2, 5)] : WaitingParties) 1) 1 =
        WaitingParties.remove ([(2, 5)] : WaitingParties) 1 :=
  claim_C8_idempotent_cleanup [(2, 5)] 1 (by decide)

/-- Claim C9: the handler is total.  From any well-formed state (stored
permits only on already-allocated handles) every attempt, whatever its
phase, is driven to a terminal state by at most three of its own scheduler
actions, and the outcome it terminates with renders to one of the three
defined responses; the step function has no other exit. -/
theorem claim_C9_total (c : Config) (i : Nat) (att : Attempt)
    (hwf : ∀ hdl ∈ c.fired, hdl < c.nextH)
    (hi : c.attempts[i]? = some att) :
    ∃ tr : List Act, tr.length ≤ 3 ∧ (∀ a ∈ tr, a.idx = i) ∧
      ∃ o : Outcome, (run c tr).attempts[i]? = some ⟨att.id, .done o⟩ ∧
        (responseOf o = (200, OUTBOUND_MESSAGE) ∨
          responseOf o = (200, INBOUND_MESSAGE) ∨
          responseOf o = (408, TIMEOUT_MESSAGE)) := by
  have hlt : i < c.attempts.length := (List.getElem?_eq_some.mp hi).1
  have respAll : ∀ o : Outcome,
      responseOf o = (200, OUTBOUND_MESSAGE) ∨
        responseOf o = (200, INBOUND_MESSAGE) ∨
        responseOf o = (408, TIMEOUT_MESSAGE) := by
    intro o
    cases o with
    | matchedAsFirst => exact Or.inr (Or.inl rfl)
    | matchedAsSecond => exact Or.inl rfl
    | timedOut => exact Or.inr (Or.inr rfl)
  obtain ⟨id, pc⟩ := att
  cases pc with
  | done o =>
    exact ⟨[], by simp, by simp, o, by simpa [run] using hi, respAll o⟩
  | cleanup =>
    refine ⟨[.finish i], by simp, by simp [Act.idx], .timedOut, ?_, respAll _⟩
    have e1 : step c (.finish i) = some { c with
        attempts := c.attempts.set i ⟨id, .done .timedOut⟩,
        registry := WaitingParties.remove c.registry id } := by
      simp [step, Act.idx, hi]
    simp only [run, List.foldl, step1, e1, Option.getD_some]
    simpa using List.getElem?_set_eq_of_lt (⟨id, .done .timedOut⟩ : Attempt) hlt
  | waiting hdl =>
    by_cases hmem : hdl ∈ c.fired
    · refine ⟨[.deliver i], by simp, by simp [Act.idx], .matchedAsFirst, ?_, respAll _⟩
      have e1 : step c (.deliver i) = some { c with
          attempts := c.attempts.set i ⟨id, .done .matchedAsFirst⟩,
          fired := c.fired.filter fun x => x ≠ hdl } := by
        simp [step, Act.idx, hi, hmem]
      simp only [run, List.foldl, step1, e1, Option.getD_some]
      simpa using List.getElem?_set_eq_of_lt (⟨id, .done .matchedAsFirst⟩ : Attempt) hlt
    · refine ⟨[.expire i, .finish i], by simp, by simp [Act.idx], .timedOut, ?_, respAll _⟩
      have e1 : step c (.expire i) = some { c with
          attempts := c.attempts.set i ⟨id, .cleanup⟩ } := by
        simp [step, Act.idx, hi, hmem]
      have hi1 : (c.attempts.set i ⟨id, .cleanup⟩)[i]? = some ⟨id, .cleanup⟩ :=
        List.getElem?_set_eq_of_lt _ hlt
      have e2 : step { c with attempts := c.attempts.set i ⟨id, .cleanup⟩ } (.finish i)
          = some { c with
            attempts := (c.attempts.set i ⟨id, .cleanup⟩).set i ⟨id, .done .timedOut⟩,
            registry := WaitingParties.remove c.registry id } := by
        simp [step, Act.idx, hi1]
      simp only [run, List.foldl, step1, e1, e2, Option.getD_some]
      exact List.getElem?_set_eq_of_lt _ (by simpa using hlt)
  | start =>
    cases hlk : lookup c.registry id with
    | some hdl =>
      refine ⟨[.arrive i], by simp, by simp [Act.idx], .matchedAsSecond, ?_, respAll _⟩
      have e1 : step c (.arrive i) = some { c with
          attempts := c.attempts.set i ⟨id, .done .matchedAsSecond⟩,
          registry := eraseKey c.registry id,
          fired := hdl :: c.fired } := by
        simp [step, Act.idx, hi, WaitingParties.take, hlk]
      simp only [run, List.foldl, step1, e1, Option.getD_some]
      simpa using List.getElem?_set_eq_of_lt (⟨id, .done .matchedAsSecond⟩ : Attempt) hlt
    | none =>
      refine ⟨[.arrive i, .expire i, .finish i], by simp, by simp [Act.idx],
        .timedOut, ?_, respAll _⟩
      have hfresh : c.nextH ∉ c.fired := fun hmemf => absurd (hwf _ hmemf) (lt_irrefl _)
      have e1 : step c (.arrive i) = some { c with
          attempts := c.attempts.set i ⟨id, .waiting c.nextH⟩,
          registry := (id, c.nextH) :: eraseKey c.registry id,
          nextH := c.nextH + 1 } := by
        simp [step, Act.idx, hi, WaitingParties.take, WaitingParties.insert, hlk]
      have hi1 : (c.attempts.set i ⟨id, .waiting c.nextH⟩)[i]? = some ⟨id, .waiting c.nextH⟩ :=
        List.getElem?_set_eq_of_lt _ hlt
      have e2 : step { c with
          attempts := c.attempts.set i ⟨id, .waiting c.nextH⟩,
          registry := (id, c.nextH) :: eraseKey c.registry id,
          nextH := c.nextH + 1 } (.expire i)
          = some { c with
            attempts := (c.attempts.set i ⟨id, .waiting c.nextH⟩).set i ⟨id, .cleanup⟩,
            registry := (id, c.nextH) :: eraseKey c.registry id,
            nextH := c.nextH + 1 } := by
        simp [step, Act.idx, hi1, hfresh]
      have hi2 : (c.attempts.set i ⟨id, .cleanup⟩)[i]? = some ⟨id, .cleanup⟩ :=
        List.getElem?_set_eq_of_lt _ hlt
      have e3 : step { c with
          attempts := (c.attempts.set i ⟨id, .waiting c.nextH⟩).set i ⟨id, .cleanup⟩,
          registry := (id, c.nextH) :: eraseKey c.registry id,
          nextH := c.nextH + 1 } (.finish i)
          = some { c with
            attempts := ((c.attempts.set i ⟨id, .waiting c.nextH⟩).set i
              ⟨id, .cleanup⟩).set i ⟨id, .done .timedOut⟩,
            registry := WaitingParties.remove ((id, c.nextH) :: eraseKey c.registry id) id,
            nextH := c.nextH + 1 } := by
        simp [step, Act.idx, hi2]
      simp only [run, List.foldl, step1, e1, e2, e3, Option.getD_some]
      exact List.getElem?_set_eq_of_lt _ (by simpa using hlt)

/-- Witness for claim C9: a fresh attempt on an empty registry. -/
theorem claim_C9_total_witness :
    ∃ tr : List Act, tr.length ≤ 3 ∧ (∀ a ∈ tr, a.idx = 0) ∧
      ∃ o : Outcome, (run (init2 1) tr).attempts[0]? = some ⟨1, .done o⟩ ∧
        (responseOf o = (200, OUTBOUND_MESSAGE) ∨
          responseOf o = (200, INBOUND_MESSAGE) ∨
          responseOf o = (408, TIMEOUT_MESSAGE)) :=
  claim_C9_total (init2 1) 0 ⟨1, .start⟩ (by decide) (by decide)

/-- Claim C10: the identifier type at the public interface of the core is
a 32-bit unsigned integer: every representable identifier value lies in the
range 0 to 2 to the 32nd minus 1, every value in that range is
representable, and two identifiers denote the same rendezvous point exactly
when their numeric values are equal. -/
theorem claim_C10_u32_identifier :
    (∀ id : UniqueId, id.val ≤ 2 ^ 32 - 1) ∧
    (∀ n : Nat, n ≤ 2 ^ 32 - 1 → ∃ id : UniqueId, id.val = n) ∧
    ∀ a b : UniqueId, a = b ↔ a.val = b.val := by
  refine ⟨fun id => by have := id.isLt; omega,
    fun n hn => ⟨⟨n, by omega⟩, rfl⟩, fun a b => Fin.ext_iff⟩

/-- Witness for claim C10: the maximal u32 value is representable. -/
theorem claim_C10_u32_identifier_witness :
    ∃ id : UniqueId, id.val = 4294967295 :=
  claim_C10_u32_identifier.2.1 4294967295 (by norm_num)
